import Mathlib

/-!
Verification of the natural-language specification of the `tk-config-swc`
pipeline-configuration hooks against a shallow embedding of their Python
sources.  Each Python hook that a claim touches is translated into an
executable Lean definition; ShotGrid/Perforce lookups that the hooks perform
through external services are passed in as explicit function parameters so
that every hook becomes a pure function of its inputs.
-/

namespace TkConfigSwc

/-! ## Data model

ShotGrid entities are dictionaries; the hooks only ever read the `type` and
`id` keys, so an entity is embedded as that pair.  A missing / `None` value
is `Option.none`.
-/

structure SGEntity where
  etype : String
  id : Int
deriving DecidableEq

/-- Fields returned by the `find_one("Asset", ..., ["sg_asset_parent","sg_asset_type"])`
lookup in `pick_environment.py`. -/
structure AssetInfo where
  sg_asset_parent : Option SGEntity
  sg_asset_type : Option String
deriving DecidableEq

/-- The part of the toolkit `Context` object read by `PickEnvironment.execute`:
source entity, project, entity and step. -/
structure PickContext where
  source_entity : Option SGEntity
  project : Option SGEntity
  entity : Option SGEntity
  step : Option SGEntity
deriving DecidableEq

/-! ## `core/hooks/pick_environment.py`

`PickEnvironment.execute` translated clause by clause.  The two
`context.sgtk.shotgun.find_one` calls are modelled by the function
parameters `assetFind` (Asset lookup by id, yielding `sg_asset_parent` and
`sg_asset_type`) and `ce3Find` (CustomEntity03 lookup by id, yielding
`sg_asset_type`).  The Python function returns a string in the special-cased
branches and reaches the trailing `return None` otherwise, so the result
type is `Option String`.
-/

def pickEnvironment (assetFind : Int → AssetInfo) (ce3Find : Int → Option String)
    (ctx : PickContext) : Option String :=
  -- if context.source_entity: Version / PublishedFile take precedence
  match ctx.source_entity with
  | some se =>
    if se.etype = "Version" then some "version"
    else if se.etype = "PublishedFile" then some "publishedfile"
    else pickEnvironmentRest assetFind ce3Find ctx
  | none => pickEnvironmentRest assetFind ce3Find ctx
where
  pickEnvironmentRest (assetFind : Int → AssetInfo) (ce3Find : Int → Option String)
      (ctx : PickContext) : Option String :=
    if ctx.project.isNone then some "site"
    else
      match ctx.entity with
      | none => some "project"
      | some e =>
        match ctx.step with
        | none =>
          -- we have an entity but no step
          if e.etype = "Asset" then
            let info := assetFind e.id
            if info.sg_asset_parent.isSome then
              if info.sg_asset_type = some "Animations" then some "special_child"
              else some "asset_child"
            else some "asset"
          else if e.etype = "CustomEntity01" then some "env_asset"
          else if e.etype = "CustomEntity03" then
            if ce3Find e.id = some "Campaigns" then some "pub_asset"
            else some "prod_asset"
          else none
        | some _ =>
          -- we have a step and an entity
          if e.etype = "Asset" then
            let info := assetFind e.id
            if info.sg_asset_parent.isSome then
              if info.sg_asset_type = some "Animations" then some "special_child_step"
              else some "asset_child_step"
            else some "asset_step"
          else if e.etype = "CustomEntity01" then some "env_asset_step"
          else if e.etype = "CustomEntity03" then
            if ce3Find e.id = some "Campaigns" then some "pub_asset_step"
            else some "prod_asset_step"
          else none

/-- A source entity that does not short-circuit the picker: it is absent, or
its type is neither `Version` nor `PublishedFile`. -/
def sourcePlain (src : Option SGEntity) : Prop :=
  ∀ se, src = some se → se.etype ≠ "Version" ∧ se.etype ≠ "PublishedFile"

theorem pickEnvironment_eq_rest (assetFind : Int → AssetInfo)
    (ce3Find : Int → Option String) (ctx : PickContext)
    (h : sourcePlain ctx.source_entity) :
    pickEnvironment assetFind ce3Find ctx =
      pickEnvironment.pickEnvironmentRest assetFind ce3Find ctx := by
  unfold pickEnvironment
  cases hse : ctx.source_entity with
  | none => rfl
  | some se =>
    obtain ⟨h1, h2⟩ := h se hse
    simp [h1, h2]

/-- The complete list of environment names the picker can return, together
with `none` for the fall-through `return None`. -/
def pickEnvironmentRange : List (Option String) :=
  [none, some "version", some "publishedfile", some "site", some "project",
   some "special_child", some "asset_child", some "asset",
   some "env_asset", some "pub_asset", some "prod_asset",
   some "special_child_step", some "asset_child_step", some "asset_step",
   some "env_asset_step", some "pub_asset_step", some "prod_asset_step"]

/-- C2: `PickEnvironment.execute` realises exactly the entity/step decision
tree described in the spec: a `Version` or `PublishedFile` source entity
takes precedence and yields `"version"` / `"publishedfile"`; otherwise no
project yields `"site"`; a project without an entity yields `"project"`; an
`Asset` entity maps to `"special_child"` (parent present, asset type
`"Animations"`), `"asset_child"` (parent present, other type) or `"asset"`,
with `_step` suffixed variants when a step is present; `CustomEntity01`
yields `"env_asset"` / `"env_asset_step"`; `CustomEntity03` yields
`"pub_asset"` / `"pub_asset_step"` when its asset type is `"Campaigns"` and
`"prod_asset"` / `"prod_asset_step"` otherwise. -/
theorem pickEnvironment_decision_tree (a : Int → AssetInfo) (c : Int → Option String) :
    (∀ i p e s, pickEnvironment a c ⟨some ⟨"Version", i⟩, p, e, s⟩ = some "version")
    ∧ (∀ i p e s, pickEnvironment a c ⟨some ⟨"PublishedFile", i⟩, p, e, s⟩ =
        some "publishedfile")
    ∧ (∀ src e s, sourcePlain src →
        pickEnvironment a c ⟨src, none, e, s⟩ = some "site")
    ∧ (∀ src pr s, sourcePlain src →
        pickEnvironment a c ⟨src, some pr, none, s⟩ = some "project")
    ∧ (∀ src pr i, sourcePlain src → (a i).sg_asset_parent.isSome →
        (a i).sg_asset_type = some "Animations" →
        pickEnvironment a c ⟨src, some pr, some ⟨"Asset", i⟩, none⟩ =
          some "special_child")
    ∧ (∀ src pr i, sourcePlain src → (a i).sg_asset_parent.isSome →
        (a i).sg_asset_type ≠ some "Animations" →
        pickEnvironment a c ⟨src, some pr, some ⟨"Asset", i⟩, none⟩ =
          some "asset_child")
    ∧ (∀ src pr i, sourcePlain src → (a i).sg_asset_parent = none →
        pickEnvironment a c ⟨src, some pr, some ⟨"Asset", i⟩, none⟩ = some "asset")
    ∧ (∀ src pr i, sourcePlain src →
        pickEnvironment a c ⟨src, some pr, some ⟨"CustomEntity01", i⟩, none⟩ =
          some "env_asset")
    ∧ (∀ src pr i, sourcePlain src → c i = some "Campaigns" →
        pickEnvironment a c ⟨src, some pr, some ⟨"CustomEntity03", i⟩, none⟩ =
          some "pub_asset")
    ∧ (∀ src pr i, sourcePlain src → c i ≠ some "Campaigns" →
        pickEnvironment a c ⟨src, some pr, some ⟨"CustomEntity03", i⟩, none⟩ =
          some "prod_asset")
    ∧ (∀ src pr i st, sourcePlain src → (a i).sg_asset_parent.isSome →
        (a i).sg_asset_type = some "Animations" →
        pickEnvironment a c ⟨src, some pr, some ⟨"Asset", i⟩, some st⟩ =
          some "special_child_step")
    ∧ (∀ src pr i st, sourcePlain src → (a i).sg_asset_parent.isSome →
        (a i).sg_asset_type ≠ some "Animations" →
        pickEnvironment a c ⟨src, some pr, some ⟨"Asset", i⟩, some st⟩ =
          some "asset_child_step")
    ∧ (∀ src pr i st, sourcePlain src → (a i).sg_asset_parent = none →
        pickEnvironment a c ⟨src, some pr, some ⟨"Asset", i⟩, some st⟩ =
          some "asset_step")
    ∧ (∀ src pr i st, sourcePlain src →
        pickEnvironment a c ⟨src, some pr, some ⟨"CustomEntity01", i⟩, some st⟩ =
          some "env_asset_step")
    ∧ (∀ src pr i st, sourcePlain src → c i = some "Campaigns" →
        pickEnvironment a c ⟨src, some pr, some ⟨"CustomEntity03", i⟩, some st⟩ =
          some "pub_asset_step")
    ∧ (∀ src pr i st, sourcePlain src → c i ≠ some "Campaigns" →
        pickEnvironment a c ⟨src, some pr, some ⟨"CustomEntity03", i⟩, some st⟩ =
          some "prod_asset_step") := by
  refine ⟨?_, ?_, ?_, ?_, ?_, ?_, ?_, ?_, ?_, ?_, ?_, ?_, ?_, ?_, ?_, ?_⟩
  · intro i p e s; unfold pickEnvironment; simp
  · intro i p e s; unfold pickEnvironment; simp
  · intro src e s hsrc
    rw [pickEnvironment_eq_rest _ _ _ hsrc]
    unfold pickEnvironment.pickEnvironmentRest; simp
  · intro src pr s hsrc
    rw [pickEnvironment_eq_rest _ _ _ hsrc]
    unfold pickEnvironment.pickEnvironmentRest; simp
  · intro src pr i hsrc hpar htype
    rw [pickEnvironment_eq_rest _ _ _ hsrc]
    unfold pickEnvironment.pickEnvironmentRest; simp [hpar, htype]
  · intro src pr i hsrc hpar htype
    rw [pickEnvironment_eq_rest _ _ _ hsrc]
    unfold pickEnvironment.pickEnvironmentRest; simp [hpar, htype]
  · intro src pr i hsrc hpar
    rw [pickEnvironment_eq_rest _ _ _ hsrc]
    unfold pickEnvironment.pickEnvironmentRest; simp [hpar]
  · intro src pr i hsrc
    rw [pickEnvironment_eq_rest _ _ _ hsrc]
    unfold pickEnvironment.pickEnvironmentRest; simp
  · intro src pr i hsrc hc
    rw [pickEnvironment_eq_rest _ _ _ hsrc]
    unfold pickEnvironment.pickEnvironmentRest; simp [hc]
  · intro src pr i hsrc hc
    rw [pickEnvironment_eq_rest _ _ _ hsrc]
    unfold pickEnvironment.pickEnvironmentRest; simp [hc]
  · intro src pr i st hsrc hpar htype
    rw [pickEnvironment_eq_rest _ _ _ hsrc]
    unfold pickEnvironment.pickEnvironmentRest; simp [hpar, htype]
  · intro src pr i st hsrc hpar htype
    rw [pickEnvironment_eq_rest _ _ _ hsrc]
    unfold pickEnvironment.pickEnvironmentRest; simp [hpar, htype]
  · intro src pr i st hsrc hpar
    rw [pickEnvironment_eq_rest _ _ _ hsrc]
    unfold pickEnvironment.pickEnvironmentRest; simp [hpar]
  · intro src pr i st hsrc
    rw [pickEnvironment_eq_rest _ _ _ hsrc]
    unfold pickEnvironment.pickEnvironmentRest; simp
  · intro src pr i st hsrc hc
    rw [pickEnvironment_eq_rest _ _ _ hsrc]
    unfold pickEnvironment.pickEnvironmentRest; simp [hc]
  · intro src pr i st hsrc hc
    rw [pickEnvironment_eq_rest _ _ _ hsrc]
    unfold pickEnvironment.pickEnvironmentRest; simp [hc]

/-- A concrete Asset lookup used for witnesses: id 1 is a child asset of
type Animations, id 2 a child asset of another type, everything else a
parentless asset. -/
def assetFindC : Int → AssetInfo := fun i =>
  if i = 1 then ⟨some ⟨"Asset", 99⟩, some "Animations"⟩
  else if i = 2 then ⟨some ⟨"Asset", 99⟩, some "Props"⟩
  else ⟨none, none⟩

/-- A concrete CustomEntity03 lookup used for witnesses. -/
def ce3FindC : Int → Option String := fun i =>
  if i = 1 then some "Campaigns" else some "Other"

/-- Witness for C2: every row of the decision tree evaluated at a concrete
context. -/
theorem pickEnvironment_decision_tree_witness :
    pickEnvironment assetFindC ce3FindC ⟨some ⟨"Version", 7⟩, none, none, none⟩ =
      some "version"
    ∧ pickEnvironment assetFindC ce3FindC ⟨some ⟨"PublishedFile", 7⟩, none, none, none⟩ =
      some "publishedfile"
    ∧ pickEnvironment assetFindC ce3FindC ⟨none, none, none, none⟩ = some "site"
    ∧ pickEnvironment assetFindC ce3FindC ⟨none, some ⟨"Project", 3⟩, none, none⟩ =
      some "project"
    ∧ pickEnvironment assetFindC ce3FindC
        ⟨none, some ⟨"Project", 3⟩, some ⟨"Asset", 1⟩, none⟩ = some "special_child"
    ∧ pickEnvironment assetFindC ce3FindC
        ⟨none, some ⟨"Project", 3⟩, some ⟨"Asset", 2⟩, none⟩ = some "asset_child"
    ∧ pickEnvironment assetFindC ce3FindC
        ⟨none, some ⟨"Project", 3⟩, some ⟨"Asset", 3⟩, none⟩ = some "asset"
    ∧ pickEnvironment assetFindC ce3FindC
        ⟨none, some ⟨"Project", 3⟩, some ⟨"CustomEntity01", 4⟩, none⟩ = some "env_asset"
    ∧ pickEnvironment assetFindC ce3FindC
        ⟨none, some ⟨"Project", 3⟩, some ⟨"CustomEntity03", 1⟩, none⟩ = some "pub_asset"
    ∧ pickEnvironment assetFindC ce3FindC
        ⟨none, some ⟨"Project", 3⟩, some ⟨"CustomEntity03", 2⟩, none⟩ = some "prod_asset"
    ∧ pickEnvironment assetFindC ce3FindC
        ⟨none, some ⟨"Project", 3⟩, some ⟨"Asset", 1⟩, some ⟨"Step", 8⟩⟩ =
        some "special_child_step"
    ∧ pickEnvironment assetFindC ce3FindC
        ⟨none, some ⟨"Project", 3⟩, some ⟨"Asset", 2⟩, some ⟨"Step", 8⟩⟩ =
        some "asset_child_step"
    ∧ pickEnvironment assetFindC ce3FindC
        ⟨none, some ⟨"Project", 3⟩, some ⟨"Asset", 3⟩, some ⟨"Step", 8⟩⟩ =
        some "asset_step"
    ∧ pickEnvironment assetFindC ce3FindC
        ⟨none, some ⟨"Project", 3⟩, some ⟨"CustomEntity01", 4⟩, some ⟨"Step", 8⟩⟩ =
        some "env_asset_step"
    ∧ pickEnvironment assetFindC ce3FindC
        ⟨none, some ⟨"Project", 3⟩, some ⟨"CustomEntity03", 1⟩, some ⟨"Step", 8⟩⟩ =
        some "pub_asset_step"
    ∧ pickEnvironment assetFindC ce3FindC
        ⟨none, some ⟨"Project", 3⟩, some ⟨"CustomEntity03", 2⟩, some ⟨"Step", 8⟩⟩ =
        some "prod_asset_step" := by
  obtain ⟨h1, h2, h3, h4, h5, h6, h7, h8, h9, h10, h11, h12, h13, h14, h15, h16⟩ :=
    pickEnvironment_decision_tree assetFindC ce3FindC
  refine ⟨h1 7 none none none, h2 7 none none none, h3 none none none (by simp [sourcePlain]),
    h4 none ⟨"Project", 3⟩ none (by simp [sourcePlain]),
    h5 none ⟨"Project", 3⟩ 1 (by simp [sourcePlain]) (by decide) (by decide),
    h6 none ⟨"Project", 3⟩ 2 (by simp [sourcePlain]) (by decide) (by decide),
    h7 none ⟨"Project", 3⟩ 3 (by simp [sourcePlain]) (by decide),
    h8 none ⟨"Project", 3⟩ 4 (by simp [sourcePlain]),
    h9 none ⟨"Project", 3⟩ 1 (by simp [sourcePlain]) (by decide),
    h10 none ⟨"Project", 3⟩ 2 (by simp [sourcePlain]) (by decide),
    h11 none ⟨"Project", 3⟩ 1 ⟨"Step", 8⟩ (by simp [sourcePlain]) (by decide) (by decide),
    h12 none ⟨"Project", 3⟩ 2 ⟨"Step", 8⟩ (by simp [sourcePlain]) (by decide) (by decide),
    h13 none ⟨"Project", 3⟩ 3 ⟨"Step", 8⟩ (by simp [sourcePlain]) (by decide),
    h14 none ⟨"Project", 3⟩ 4 ⟨"Step", 8⟩ (by simp [sourcePlain]),
    h15 none ⟨"Project", 3⟩ 1 ⟨"Step", 8⟩ (by simp [sourcePlain]) (by decide),
    h16 none ⟨"Project", 3⟩ 2 ⟨"Step", 8⟩ (by simp [sourcePlain]) (by decide)⟩

/-- C1 counterexample: for a context with a project and a `Shot` entity and
no step, the picker falls through every special case and returns `none`, so
it is not a total function into environment name strings. -/
theorem pickEnvironment_not_always_string :
    pickEnvironment assetFindC ce3FindC
      ⟨none, some ⟨"Project", 3⟩, some ⟨"Shot", 5⟩, none⟩ = none := by
  decide

/-- C1 (amended): the picker is a total function from the context fields
and the two entity lookups to an optional environment name; it always
returns either one of the sixteen environment name strings or `none` (the
fall-through for entity/step combinations outside the special-cased
types). -/
theorem pickEnvironment_total_range (a : Int → AssetInfo) (c : Int → Option String)
    (ctx : PickContext) :
    pickEnvironment a c ctx ∈ pickEnvironmentRange := by
  rcases ctx with ⟨src, p, e, s⟩
  rcases src with _ | se <;> rcases e with _ | e <;> rcases s with _ | st <;>
    simp only [pickEnvironment, pickEnvironment.pickEnvironmentRest,
      pickEnvironmentRange] <;>
    split_ifs <;> simp

/-! ## `hooks/tk-framework-perforce/get_perforce_user.py`

`GetPerforceUser.execute` looks up the `sg_p4_user` field of the supplied
Shotgun user dictionary and falls back to one `find_one("HumanUser", ...)`
query by id.  The dictionary field is embedded as `Option (Option String)`:
the outer level records whether the key is present, the inner level the
stored value (which may itself be null).  The Shotgun query is the
parameter `findOne`; it returns the queried user's `sg_p4_user` value, or
`none` when no user is found.  The second component of the result counts
how many fallback queries were performed.
-/

structure P4SGUser where
  id : Int
  sg_p4_user : Option (Option String)
deriving DecidableEq

def getPerforceUser (findOne : Int → Option (Option String))
    (sg_user : Option P4SGUser) : Option String × Nat :=
  match sg_user with
  | none => (none, 0)
  | some u =>
    match u.sg_p4_user with
    | some v => (v, 0)
    | none =>
      match findOne u.id with
      | some res => (res, 1)
      | none => (none, 1)

/-- C6: `GetPerforceUser.execute` returns `None` for a missing user, returns
the `sg_p4_user` field directly (with no query) when the key is present,
and otherwise performs exactly one fallback query by the user's id,
returning the queried value or `None` when the query finds no user. -/
theorem getPerforceUser_spec (findOne : Int → Option (Option String))
    (i : Int) (v : Option String) :
    getPerforceUser findOne none = (none, 0)
    ∧ getPerforceUser findOne (some ⟨i, some v⟩) = (v, 0)
    ∧ getPerforceUser findOne (some ⟨i, none⟩) = ((findOne i).join, 1) := by
  refine ⟨rfl, rfl, ?_⟩
  cases h : findOne i <;> simp [getPerforceUser, h]

/-! ## `accept` hooks (`publish_file.py`, `add_file.py`)

Both accept implementations return a dictionary whose mandatory key is the
boolean `accepted`; the embedding's `AcceptResult` carries exactly that
key.  `AddPublishPlugin.accept` defers to its base class implementation
when it accepts, so the base class result is a parameter.
-/

structure AcceptResult where
  accepted : Bool
deriving DecidableEq

/-- The `p4_data` dictionary attached to collected items; the accept hooks
only read its `action` field. -/
structure P4Data where
  action : String
deriving DecidableEq

/-- `PublishPlugin.accept` from `publish_file.py`. -/
def publishPluginAccept (type_spec : String) : AcceptResult :=
  if type_spec = "file.playblast" then ⟨false⟩ else ⟨true⟩

/-- `AddPublishPlugin.accept` from `add_file.py`; `baseAccept` is the result
of `super().accept(settings, item)`. -/
def addPublishPluginAccept (baseAccept : AcceptResult) (p4_data : Option P4Data) :
    AcceptResult :=
  match p4_data with
  | some d => if d.action = "add" then baseAccept else ⟨false⟩
  | none => ⟨false⟩

/-- C7: both accept hooks return a dictionary with the boolean `accepted`
key; `PublishPlugin.accept` rejects exactly the `file.playblast` item type
and accepts every other item; `AddPublishPlugin.accept` rejects unless the
item carries `p4_data` with action `"add"`, in which case it defers to the
base class result. -/
theorem accept_hooks_spec (ts : String) (base : AcceptResult) (d : P4Data) :
    (publishPluginAccept "file.playblast").accepted = false
    ∧ (ts ≠ "file.playblast" → (publishPluginAccept ts).accepted = true)
    ∧ addPublishPluginAccept base none = ⟨false⟩
    ∧ (d.action ≠ "add" → addPublishPluginAccept base (some d) = ⟨false⟩)
    ∧ (d.action = "add" → addPublishPluginAccept base (some d) = base) := by
  refine ⟨rfl, ?_, rfl, ?_, ?_⟩
  · intro h; unfold publishPluginAccept; simp [h]
  · intro h; unfold addPublishPluginAccept; simp [h]
  · intro h; unfold addPublishPluginAccept; simp [h]

/-- Witness for C7: concrete evaluations of both accept hooks. -/
theorem accept_hooks_spec_witness :
    (publishPluginAccept "file.playblast").accepted = false
    ∧ (publishPluginAccept "file.maya").accepted = true
    ∧ addPublishPluginAccept ⟨true⟩ none = ⟨false⟩
    ∧ addPublishPluginAccept ⟨true⟩ (some ⟨"edit"⟩) = ⟨false⟩
    ∧ addPublishPluginAccept ⟨true⟩ (some ⟨"add"⟩) = ⟨true⟩ := by
  obtain ⟨h1, h2, h3, h4, h5⟩ := accept_hooks_spec "file.maya" ⟨true⟩ ⟨"edit"⟩
  obtain ⟨_, _, _, _, h5'⟩ := accept_hooks_spec "file.maya" ⟨true⟩ ⟨"add"⟩
  exact ⟨h1, h2 (by decide), h3, h4 (by decide), h5' rfl⟩

/-! ## `PublishPlugin.validate` (`publish_file.py`)

The validation decision procedure.  The task context derived from the
file's path (`self._find_task_context(path)`) and the item's own context
are inputs; only their `entity` and `task` fields are read.  The outcome is
one of: raising the generic `Exception("Potential bad path!")`, returning
`False`, or returning `True`.  The extension used by the lowercase check is
`path.split(".")[-1]`, i.e. the segment after the last dot (the whole path
when there is no dot).
-/

structure ValContext where
  entity : Option SGEntity
  task : Option SGEntity
deriving DecidableEq

inductive ValidateResult where
  | raised
  | returnedFalse
  | returnedTrue
deriving DecidableEq

/-- Python `path.split(".")[-1]` as a character list. -/
def pyLastDotSegment (s : String) : List Char :=
  s.data.foldl (fun acc c => if c = '.' then [] else acc ++ [c]) []

/-- `PublishPlugin.validate` from `publish_file.py`, as a function of the
item context, the context derived from the path, the item's
`ignore_bad_stuff` local property and the path. -/
def publishPluginValidate (itemCtx targetCtx : ValContext) (ignoreBad : Bool)
    (path : String) : ValidateResult :=
  if itemCtx.entity = none ∧ targetCtx.entity = none then .returnedFalse
  else if targetCtx.entity ≠ itemCtx.entity then .returnedFalse
  else if targetCtx.task ≠ itemCtx.task ∧ ignoreBad = false then .raised
  else if (pyLastDotSegment path).map Char.toLower ≠ pyLastDotSegment path then
    .returnedFalse
  else .returnedTrue

/-- C5 counterexample: when neither context carries an entity but the tasks
disagree and `ignore_bad_stuff` is unset, `validate` returns `False`
without raising, although the claim's raise condition (task disagreement
with the ignore flag unset) holds. -/
theorem publishPluginValidate_counterexample :
    (some ⟨"Task", (1 : Int)⟩ : Option SGEntity) ≠ (none : Option SGEntity)
    ∧ publishPluginValidate ⟨none, none⟩ ⟨none, some ⟨"Task", 1⟩⟩ false "a.ma" =
        .returnedFalse := by
  decide

/-- C5 (amended): `validate` raises the generic exception exactly when the
entity checks pass first (the two contexts agree on an entity and at least
one of them has one), the path-derived task disagrees with the item's task
and `ignore_bad_stuff` is unset; it returns `False` when both contexts lack
an entity, when the entities disagree, or — only once no raise occurred —
when the extension after the last dot is not lowercase; in all remaining
cases it returns `True`. -/
theorem publishPluginValidate_characterization (i t : ValContext) (ig : Bool)
    (path : String) :
    (publishPluginValidate i t ig path = .raised ↔
      ¬(i.entity = none ∧ t.entity = none) ∧ t.entity = i.entity
        ∧ t.task ≠ i.task ∧ ig = false)
    ∧ (publishPluginValidate i t ig path = .returnedFalse ↔
      (i.entity = none ∧ t.entity = none)
      ∨ t.entity ≠ i.entity
      ∨ (¬(i.entity = none ∧ t.entity = none) ∧ t.entity = i.entity
          ∧ (t.task = i.task ∨ ig = true)
          ∧ (pyLastDotSegment path).map Char.toLower ≠ pyLastDotSegment path))
    ∧ (publishPluginValidate i t ig path = .returnedTrue ↔
      ¬(i.entity = none ∧ t.entity = none) ∧ t.entity = i.entity
        ∧ (t.task = i.task ∨ ig = true)
        ∧ (pyLastDotSegment path).map Char.toLower = pyLastDotSegment path) := by
  unfold publishPluginValidate
  split_ifs with h1 h2 h3 h4
  · simp_all
  · simp_all
  · obtain ⟨h3a, h3b⟩ := h3
    simp_all
  · push_neg at h3
    rcases Bool.eq_false_or_eq_true ig with hig | hig <;> simp_all
  · push_neg at h3
    rcases Bool.eq_false_or_eq_true ig with hig | hig <;> simp_all

/-- Witness for C5: the amended characterization evaluated on concrete
inputs exercising the raise case. -/
theorem publishPluginValidate_characterization_witness :
    publishPluginValidate ⟨some ⟨"Asset", 1⟩, some ⟨"Task", 1⟩⟩
      ⟨some ⟨"Asset", 1⟩, some ⟨"Task", 2⟩⟩ false "a.ma" = .raised := by
  exact (publishPluginValidate_characterization ⟨some ⟨"Asset", 1⟩, some ⟨"Task", 1⟩⟩
    ⟨some ⟨"Asset", 1⟩, some ⟨"Task", 2⟩⟩ false "a.ma").1.mpr (by decide)

/-! ## `hooks/tk-multi-publish2/collector.py`: `_get_item_info`

The static `common_file_info` table, in the source's insertion order.  The
source stores `self._get_icon_path(<name>)` in each entry; the embedding
keeps the icon file name and applies the icon resolution function
`iconPath` (which models `_get_icon_path`, a filesystem search) at the
point of use, so that the table stays a closed value.  `mimetypes.guess_type`
is the parameter `guessType`, returning the mimetype string (e.g.
`"image/jpeg"`) or `none`.  The filename and extension components produced
by the host utility `get_file_path_components` are taken as inputs.
-/

structure FileTypeEntry where
  display : String
  extensions : List String
  iconName : String
  item_type : String
  item_priority : Int
deriving DecidableEq

def commonFileInfo : List FileTypeEntry :=
  [⟨"Alembic Cache", ["abc"], "alembic.png", "file.alembic", 0⟩,
   ⟨"3dsmax Scene", ["max"], "3dsmax.png", "file.3dsmax", 10⟩,
   ⟨"Houdini Scene", ["hip", "hipnc"], "houdini.png", "file.houdini", 10⟩,
   ⟨"Maya Scene", ["ma", "mb"], "maya.png", "file.maya", 10⟩,
   ⟨"Motion Builder FBX", ["fbx"], "geometry.png", "file.motionbuilder", 3⟩,
   ⟨"Photoshop Image", ["psd", "psb"], "photoshop.png", "file.photoshop", 5⟩,
   ⟨"Texture Image", ["tif", "tiff", "tx", "tga", "dds", "rat", "exr", "hdr"],
     "texture.png", "file.texture", 0⟩,
   ⟨"PDF", ["pdf"], "file.png", "file.image", 0⟩,
   ⟨"Image", ["png", "jpg", "gif"], "file.png", "file.image", 0⟩,
   ⟨"SpeedTree Modeler", ["spm"], "speedtree.png", "file.speedtree", 10⟩,
   ⟨"SpeedTree Export", ["st9", "st"], "speedtree.png", "file.speedtree", 5⟩,
   ⟨"Settings File", ["pkl", "json"], "file.png", "file.settings", 3⟩,
   ⟨"Mel Scripts", ["mel"], "file.png", "script.maya", 0⟩,
   ⟨"Python Scripts", ["py", "pyc"], "file.png", "script.python", 0⟩,
   ⟨"Movie", ["mov", "avi", "mp4", "mpeg", "h264"], "video.png", "file.video", 0⟩,
   ⟨"Substance Designer", ["sbs"], "substance_designer.png", "file.substance", 7⟩,
   ⟨"Substance Painter", ["spp"], "substance_painter.png", "file.substance", 9⟩,
   ⟨"Zbrush Tool", ["ztl"], "zbrush.png", "file.zbrush", 5⟩]

/-- The dictionary `_get_item_info` returns (the `children` list, always
created empty, is omitted). -/
structure ItemTypeInfo where
  item_type : String
  type_display : String
  icon_path : String
  extension : String
  item_priority : Int
deriving DecidableEq

/-- Python `str.title` restricted to alphabetic casing: a letter after a
non-letter is uppercased, any other letter lowercased. -/
def pyTitleAux : Bool → List Char → List Char
  | _, [] => []
  | prev, c :: rest =>
    if c.isAlpha then (if prev then c.toLower else c.toUpper) :: pyTitleAux true rest
    else c :: pyTitleAux false rest

def pyTitle (s : String) : String := String.mk (pyTitleAux false s.data)

/-- `BasicSceneCollector._get_item_info`: look the extension up in the
common file type table (first match in insertion order), fall back to the
mimetype category, and finally to a generic unknown file type. -/
def getItemInfo (guessType : String → Option String) (iconPath : String → String)
    (filename extension : String) : ItemTypeInfo :=
  match commonFileInfo.find? (fun e => e.extensions.contains extension) with
  | some e => ⟨e.item_type, e.display, iconPath e.iconName, extension, e.item_priority⟩
  | none =>
    match guessType filename with
    | some categoryType =>
      -- category_type.split("/")[0]
      let category := String.mk (categoryType.data.takeWhile (fun c => c ≠ '/'))
      ⟨"file." ++ category, pyTitle category ++ " File",
       iconPath (category ++ ".png"), extension, 0⟩
    | none => ⟨"file.unknown", "File", iconPath "file.png", extension, 0⟩

theorem commonFileInfo_lookup :
    ∀ e ∈ commonFileInfo, ∀ ext ∈ e.extensions,
      commonFileInfo.find? (fun x => x.extensions.contains ext) = some e := by
  decide

/-- C4: for every extension in the static `common_file_info` table,
`_get_item_info` returns exactly that entry's item type, display name,
icon and priority; for an extension outside the table it falls back to the
mimetype category (`file.<category>` / `<Category> File`) when one is
guessed, and otherwise to `file.unknown` / `File` with priority 0. -/
theorem getItemInfo_spec (g : String → Option String) (ic : String → String)
    (fn ext : String) :
    (∀ e ∈ commonFileInfo, ext ∈ e.extensions →
      getItemInfo g ic fn ext =
        ⟨e.item_type, e.display, ic e.iconName, ext, e.item_priority⟩)
    ∧ ((∀ e ∈ commonFileInfo, ext ∉ e.extensions) →
        (∀ ct, g fn = some ct →
          getItemInfo g ic fn ext =
            ⟨"file." ++ String.mk (ct.data.takeWhile (fun c => c ≠ '/')),
             pyTitle (String.mk (ct.data.takeWhile (fun c => c ≠ '/'))) ++ " File",
             ic (String.mk (ct.data.takeWhile (fun c => c ≠ '/')) ++ ".png"), ext, 0⟩)
        ∧ (g fn = none →
            getItemInfo g ic fn ext =
              ⟨"file.unknown", "File", ic "file.png", ext, 0⟩)) := by
  constructor
  · intro e he hx
    have h := commonFileInfo_lookup e he ext hx
    unfold getItemInfo
    rw [h]
  · intro hall
    have hnone : commonFileInfo.find? (fun x => x.extensions.contains ext) = none := by
      rw [List.find?_eq_none]
      intro x hx
      simpa using hall x hx
    constructor
    · intro ct hct
      unfold getItemInfo
      rw [hnone, hct]
    · intro hg
      unfold getItemInfo
      rw [hnone, hg]

/-- Witness for C4: the Maya extension resolves to the table entry, an
unknown extension with a guessed mimetype falls back to the category, and
an unknown extension with no guess falls back to the generic file type. -/
theorem getItemInfo_spec_witness :
    getItemInfo (fun _ => none) (fun s => s) "scene.ma" "ma" =
      ⟨"file.maya", "Maya Scene", "maya.png", "ma", 10⟩
    ∧ getItemInfo (fun _ => some "video/mp4") (fun s => s) "clip.xyz" "xyz" =
      ⟨"file.video", "Video File", "video.png", "xyz", 0⟩
    ∧ getItemInfo (fun _ => none) (fun s => s) "blob.xyz" "xyz" =
      ⟨"file.unknown", "File", "file.png", "xyz", 0⟩ := by
  refine ⟨?_, ?_, ?_⟩
  · exact (getItemInfo_spec (fun _ => none) (fun s => s) "scene.ma" "ma").1
      ⟨"Maya Scene", ["ma", "mb"], "maya.png", "file.maya", 10⟩ (by decide) (by decide)
  · have h := ((getItemInfo_spec (fun _ => some "video/mp4") (fun s => s)
      "clip.xyz" "xyz").2 (by decide)).1 "video/mp4" rfl
    rw [h]
    decide
  · exact ((getItemInfo_spec (fun _ => none) (fun s => s) "blob.xyz" "xyz").2
      (by decide)).2 rfl

/-! ## `hooks/tk-multi-publish2/path_info.py`: `get_version_path`

`VERSION_REGEX = (.*)([._-])v(\d+)\.?([^.]+)?$` (case insensitive) is
embedded as the decidable `vmatch` over character lists: the regex matches
the filename iff some occurrence of a separator `.`/`_`/`-` is followed by
`v` or `V`, one or more decimal digits, and a tail consisting of an
optional dot followed by an optional nonempty dot-free run.  A path is
embedded as the folder / filename pair produced by the host utility
`get_file_path_components` (the hook only rewrites the filename and rejoins
it with the unchanged folder).  `os.path.splitext` on the filename and the
decimal rendering of the version number are spelled out below.
-/

/-- Separators `[._-]` accepted before the `v` of a version token. -/
def isVersionSep (c : Char) : Bool := c = '.' || c = '_' || c = '-'

/-- The `\.?([^.]+)?$` tail of `VERSION_REGEX`. -/
def isTailOk : List Char → Bool
  | [] => true
  | c :: rest =>
    if c = '.' then rest.all (fun x => x ≠ '.')
    else (c :: rest).all (fun x => x ≠ '.')

/-- The `(\d+)` digit run of `VERSION_REGEX` followed by its tail: at least
one digit, then (with backtracking) a point at which the tail matches. -/
def digitsTail : List Char → Bool
  | [] => false
  | c :: rest => c.isDigit && (isTailOk rest || digitsTail rest)

/-- The `v(\d+)\.?([^.]+)?$` suffix of `VERSION_REGEX` (`v` is case
insensitive). -/
def afterSep : List Char → Bool
  | [] => false
  | v :: rest => (v = 'v' || v = 'V') && digitsTail rest

/-- Whether `re.search(VERSION_REGEX, ·)` matches: some separator position
starts a version token that runs to the end of the name. -/
def vmatch : List Char → Bool
  | [] => false
  | c :: rest => (isVersionSep c && afterSep rest) || vmatch rest

/-- `os.path.splitext` on a bare filename: split at the last dot provided
some character before it is not a dot (leading dots never start an
extension). -/
def splitextL (cs : List Char) : List Char × List Char :=
  let extRev := cs.reverse.takeWhile (fun c => c ≠ '.')
  if extRev.length = cs.length then (cs, [])
  else
    let pre := cs.take (cs.length - extRev.length - 1)
    if pre.any (fun c => c ≠ '.') then (pre, '.' :: extRev.reverse) else (cs, [])

/-- Decimal digit character. -/
def digitChar (n : Nat) : Char := Char.ofNat (48 + n)

/-- Decimal rendering of a natural number, as in the f-string
`f"{basename}.v{version}{ext}"`. -/
def natDigits (n : Nat) : List Char :=
  if n < 10 then [digitChar n]
  else natDigits (n / 10) ++ [digitChar (n % 10)]
termination_by n
decreasing_by exact Nat.div_lt_self (by omega) (by omega)

/-- `BasicPathInfo.get_version_path`: if the version regex already matches
the filename the path is returned as-is, otherwise `.v<version>` is
inserted between the basename and the extension. -/
def getVersionPath (folder filename : String) (version : Nat) : String × String :=
  if vmatch filename.data then (folder, filename)
  else
    let pe := splitextL filename.data
    (folder, String.mk (pe.1 ++ ('.' :: 'v' :: natDigits version ++ pe.2)))

theorem digitChar_isDigit (n : Nat) (h : n < 10) : (digitChar n).isDigit = true := by
  interval_cases n <;> decide

theorem natDigits_ne_nil (n : Nat) : natDigits n ≠ [] := by
  unfold natDigits
  split <;> simp

theorem natDigits_all_digit (n : Nat) : ∀ c ∈ natDigits n, c.isDigit = true := by
  induction n using Nat.strong_induction_on with
  | _ n ih =>
    unfold natDigits
    split
    · next h =>
      intro c hc
      simp only [List.mem_singleton] at hc
      exact hc ▸ digitChar_isDigit n h
    · next h =>
      intro c hc
      rcases List.mem_append.mp hc with hc | hc
      · exact ih (n / 10) (Nat.div_lt_self (by omega) (by omega)) c hc
      · simp only [List.mem_singleton] at hc
        exact hc ▸ digitChar_isDigit (n % 10) (Nat.mod_lt n (by omega))

theorem splitext_tail_ok (cs : List Char) : isTailOk (splitextL cs).2 = true := by
  unfold splitextL
  dsimp only
  split
  · rfl
  · split
    · have hmem : ∀ x ∈ (List.takeWhile (fun c => decide (c ≠ '.')) cs.reverse).reverse,
          x ≠ '.' := by
        intro x hx
        simpa using List.mem_takeWhile_imp (List.mem_reverse.mp hx)
      simp [isTailOk, hmem]
    · rfl

theorem digitsTail_append (ds t : List Char) (hne : ds ≠ [])
    (hds : ∀ c ∈ ds, c.isDigit = true) (ht : isTailOk t = true) :
    digitsTail (ds ++ t) = true := by
  induction ds with
  | nil => exact absurd rfl hne
  | cons d ds ih =>
    simp only [List.cons_append, digitsTail, Bool.and_eq_true, Bool.or_eq_true]
    refine ⟨hds d (by simp), ?_⟩
    rcases ds with _ | ⟨d2, ds2⟩
    · exact Or.inl (by simpa using ht)
    · exact Or.inr (ih (by simp) (fun c hc => hds c (by simp [hc])))

theorem vmatch_build (b : List Char) (sep : Char) (hsep : isVersionSep sep = true)
    (ds t : List Char) (hne : ds ≠ []) (hds : ∀ c ∈ ds, c.isDigit = true)
    (ht : isTailOk t = true) :
    vmatch (b ++ sep :: 'v' :: (ds ++ t)) = true := by
  induction b with
  | nil =>
    simp only [List.nil_append, vmatch, Bool.or_eq_true, Bool.and_eq_true]
    exact Or.inl ⟨hsep, by
      simp only [afterSep, Bool.and_eq_true, Bool.or_eq_true]
      exact ⟨Or.inl rfl, digitsTail_append ds t hne hds ht⟩⟩
  | cons c b ih =>
    simp only [List.cons_append, vmatch, Bool.or_eq_true]
    exact Or.inr ih

/-- C9: `get_version_path` is idempotent — applying it a second time with
any version number returns the first result unchanged, because the inserted
`.v<version>` token matches the version regex — and any filename that
already ends in a `[._-]v<digits>` token followed by an optional dot-free
extension is returned unchanged. -/
theorem getVersionPath_idempotent (folder filename : String) (v w : Nat) :
    getVersionPath (getVersionPath folder filename v).1
        (getVersionPath folder filename v).2 w = getVersionPath folder filename v
    ∧ (∀ (a : List Char) (sep : Char) (ds t : List Char),
        isVersionSep sep = true → ds ≠ [] → (∀ c ∈ ds, c.isDigit = true) →
        isTailOk t = true →
        getVersionPath folder (String.mk (a ++ sep :: 'v' :: (ds ++ t))) v =
          (folder, String.mk (a ++ sep :: 'v' :: (ds ++ t)))) := by
  constructor
  · by_cases h : vmatch filename.data
    · simp [getVersionPath, h]
    · have hv : vmatch ((splitextL filename.data).1 ++
          '.' :: 'v' :: (natDigits v ++ (splitextL filename.data).2)) = true :=
        vmatch_build _ '.' (by decide) _ _ (natDigits_ne_nil v)
          (natDigits_all_digit v) (splitext_tail_ok filename.data)
      simp only [getVersionPath, h, if_neg, if_false, Bool.false_eq_true]
      simp [hv]
  · intro a sep ds t hsep hne hds ht
    have hv : vmatch (String.mk (a ++ sep :: 'v' :: (ds ++ t))).data = true := by
      simpa using vmatch_build a sep hsep ds t hne hds ht
    simp [getVersionPath, hv]

/-- Witness for C9: a filename already carrying a `.v1` token before its
extension is returned unchanged. -/
theorem getVersionPath_idempotent_witness :
    getVersionPath "f" "scene.v1.ma" 3 = ("f", "scene.v1.ma") := by
  have h := (getVersionPath_idempotent "f" "scene.v1.ma" 3 0).2
    ['s', 'c', 'e', 'n', 'e'] '.' ['1'] ['.', 'm', 'a']
    (by decide) (by decide) (by decide) (by decide)
  have he : String.mk (['s', 'c', 'e', 'n', 'e'] ++ '.' :: 'v' ::
      (['1'] ++ ['.', 'm', 'a'])) = "scene.v1.ma" := by decide
  rw [he] at h
  exact h

/-! ## `collector.py`: `_process_hierarchy`

The greedy parent/child nesting pass.  Item infos are dictionaries mutated
in place; the embedding gives each info an index into the input list and
threads an explicit state: `order` is the mutable `item_infos` list (as
indices) and `childMap` the accumulated `children` lists per index.  Python
`list.remove` raises `ValueError` when the element is absent, so removal is
an `Option` and the whole pass returns `none` when a removal fails (which
can genuinely happen when an already-nested parent revisits the shrunken
list).  `sorted(key=priority, reverse=True)` is a stable descending sort,
embedded as an insertion sort that keeps the original order of items with
equal priority.
-/

structure ItemInfo where
  item_path : String
  item_priority : Int
deriving DecidableEq

/-- Path separator characters recognised by `os.path.basename` (paths have
been normalised by `sgtk.util.ShotgunPath.normalize`). -/
def pathSep (c : Char) : Bool := c = '/' || c = '\\'

/-- `os.path.basename` on characters: the part after the last separator. -/
def basenameL (cs : List Char) : List Char :=
  cs.foldl (fun acc c => if pathSep c then [] else acc ++ [c]) []

def prioOf (items : List ItemInfo) (i : Nat) : Int :=
  (items.getD i ⟨"", 0⟩).item_priority

/-- `os.path.basename(item_path)`. -/
def fileNameOf (items : List ItemInfo) (i : Nat) : List Char :=
  basenameL (items.getD i ⟨"", 0⟩).item_path.data

/-- `os.path.basename(item_path).split(chr(46))[0]`: the basename up to the
first dot. -/
def baseNameOf (items : List ItemInfo) (i : Nat) : List Char :=
  (fileNameOf items i).takeWhile (fun c => c ≠ '.')

/-- Boolean list-prefix test. -/
def isPrefixL : List Char → List Char → Bool
  | [], _ => true
  | _ :: _, [] => false
  | a :: as, b :: bs => a = b && isPrefixL as bs

/-- Boolean substring test, Python's `in` on strings. -/
def isSubL (n : List Char) : List Char → Bool
  | [] => isPrefixL n []
  | c :: rest => isPrefixL n (c :: rest) || isSubL n rest

/-- Python `list.remove`: drop the first occurrence, `none` (a raised
`ValueError`) when the element is absent. -/
def removeFirst {α : Type} [DecidableEq α] (a : α) : List α → Option (List α)
  | [] => none
  | x :: xs => if x = a then some xs else (removeFirst a xs).map (fun r => x :: r)

structure HState where
  order : List Nat
  childMap : List (List Nat)
deriving DecidableEq

/-- `parent_item["children"].append(lower_item)`. -/
def appendChild (cm : List (List Nat)) (p c : Nat) : List (List Nat) :=
  cm.set p ((cm.getD p []) ++ [c])

/-- The better-parent check for `lower_item` `c`: collect the base names of
all current items of strictly higher priority than `c`, remove one
occurrence of the parent's name (Python raises when it is absent), and ask
whether any remaining name is a longer substring of `c`'s base name. -/
def betterParentExists (items : List ItemInfo) (pName : List Char) (c : Nat)
    (order : List Nat) : Option Bool :=
  match removeFirst pName
      ((order.filter (fun x => prioOf items c < prioOf items x)).map
        (baseNameOf items)) with
  | none => none
  | some others =>
    some (others.any (fun o => isSubL o (baseNameOf items c) && pName.length < o.length))

/-- The body of `for lower_item in lower_items` for one parent `p`. -/
def innerLoop (items : List ItemInfo) (p : Nat) : List Nat → HState → Option HState
  | [], st => some st
  | c :: rest, st =>
    if isSubL (baseNameOf items p) (fileNameOf items c) then
      match betterParentExists items (baseNameOf items p) c st.order with
      | none => none
      | some true => innerLoop items p rest st
      | some false =>
        match removeFirst c st.order with
        | none => none
        | some order2 => innerLoop items p rest ⟨order2, appendChild st.childMap p c⟩
    else innerLoop items p rest st

/-- The body of `for parent_item in list(item_infos)`: the snapshot of the
sorted list is iterated while `item_infos` (`st.order`) shrinks. -/
def outerLoop (items : List ItemInfo) : List Nat → HState → Option HState
  | [], st => some st
  | p :: rest, st =>
    match innerLoop items p
        (st.order.filter (fun x => prioOf items x < prioOf items p)) st with
    | none => none
    | some st2 => outerLoop items rest st2

/-- Stable insertion of an index into a priority-descending list: an item is
placed after every item of greater or equal priority, as Python's stable
`sorted(..., reverse=True)` does. -/
def insertDesc (items : List ItemInfo) (i : Nat) : List Nat → List Nat
  | [] => [i]
  | j :: js => if prioOf items i ≤ prioOf items j then j :: insertDesc items i js
               else i :: j :: js

def sortDescIdx (items : List ItemInfo) : List Nat :=
  (List.range items.length).foldl (fun acc i => insertDesc items i acc) []

/-- `BasicSceneCollector._process_hierarchy`. -/
def processHierarchy (items : List ItemInfo) : Option HState :=
  outerLoop items (sortDescIdx items)
    ⟨sortDescIdx items, List.replicate items.length []⟩

/-- The nesting invariant: every child has strictly lower priority than its
parent, and the parent's base name occurs in the child's basename. -/
def ChildInv (items : List ItemInfo) (cm : List (List Nat)) : Prop :=
  ∀ p c, c ∈ cm.getD p [] →
    prioOf items c < prioOf items p
    ∧ isSubL (baseNameOf items p) (fileNameOf items c) = true

theorem getD_set_list (cm : List (List Nat)) (p q : Nat) (v : List Nat) :
    (cm.set p v).getD q [] = if p = q ∧ p < cm.length then v else cm.getD q [] := by
  induction cm generalizing p q with
  | nil => simp
  | cons a t ih =>
    cases p with
    | zero =>
      cases q with
      | zero => simp
      | succ q => simp
    | succ p =>
      cases q with
      | zero => simp
      | succ q =>
        have h3 := ih p q
        simp only [List.getD] at h3 ⊢
        show ((t.set p v).get? q).getD [] =
          if p + 1 = q + 1 ∧ p + 1 < t.length + 1 then v else (t.get? q).getD []
        rw [h3]
        by_cases h : p = q ∧ p < t.length
        · rw [if_pos h, if_pos ⟨by omega, by omega⟩]
        · rw [if_neg h, if_neg (by omega)]

theorem childInv_append (items : List ItemInfo) (cm : List (List Nat)) (p c : Nat)
    (h : ChildInv items cm) (h1 : prioOf items c < prioOf items p)
    (h2 : isSubL (baseNameOf items p) (fileNameOf items c) = true) :
    ChildInv items (appendChild cm p c) := by
  intro q d hd
  unfold appendChild at hd
  rw [getD_set_list] at hd
  by_cases hq : p = q ∧ p < cm.length
  · obtain ⟨rfl, hlen⟩ := hq
    rw [if_pos ⟨rfl, hlen⟩] at hd
    rcases List.mem_append.mp hd with hd | hd
    · exact h p d hd
    · simp only [List.mem_singleton] at hd
      subst hd
      exact ⟨h1, h2⟩
  · rw [if_neg hq] at hd
    exact h q d hd

theorem innerLoop_inv (items : List ItemInfo) (p : Nat) :
    ∀ (lower : List Nat) (st st2 : HState),
      innerLoop items p lower st = some st2 →
      (∀ c ∈ lower, prioOf items c < prioOf items p) →
      ChildInv items st.childMap → ChildInv items st2.childMap := by
  intro lower
  induction lower with
  | nil =>
    intro st st2 h _ hi
    simp only [innerLoop, Option.some.injEq] at h
    exact h ▸ hi
  | cons c rest ih =>
    intro st st2 h hl hi
    rw [innerLoop] at h
    split at h
    · split at h
      · exact absurd h (by simp)
      · exact ih st st2 h (fun x hx => hl x (by simp [hx])) hi
      · split at h
        · exact absurd h (by simp)
        · refine ih _ st2 h (fun x hx => hl x (by simp [hx])) ?_
          exact childInv_append items st.childMap p c hi (hl c (by simp))
            (by assumption)
    · exact ih st st2 h (fun x hx => hl x (by simp [hx])) hi

theorem outerLoop_inv (items : List ItemInfo) :
    ∀ (snap : List Nat) (st st2 : HState),
      outerLoop items snap st = some st2 →
      ChildInv items st.childMap → ChildInv items st2.childMap := by
  intro snap
  induction snap with
  | nil =>
    intro st st2 h hi
    simp only [outerLoop, Option.some.injEq] at h
    exact h ▸ hi
  | cons p rest ih =>
    intro st st2 h hi
    rw [outerLoop] at h
    split at h
    · exact absurd h (by simp)
    · next st1 heq =>
      refine ih st1 st2 h ?_
      refine innerLoop_inv items p _ st st1 heq ?_ hi
      intro c hc
      simpa using (List.mem_filter.mp hc).2

theorem childInv_init (items : List ItemInfo) (n : Nat) :
    ChildInv items (List.replicate n []) := by
  intro p c hc
  rcases lt_or_ge p n with h | h
  · simp [List.getD, List.getElem?_replicate, h] at hc
  · simp [List.getD, List.getElem?_replicate, Nat.not_lt.mpr h] at hc

/-- C3: after `_process_hierarchy` completes, every nested child has an
`item_priority` strictly less than its parent's and the parent's base
filename (up to the first dot) is a substring of the child's filename;
moreover, a child is skipped — not nested under the parent in hand — when
some other candidate parent of higher priority than the child has a longer
base name that is also a substring of the child's base name. -/
theorem processHierarchy_spec :
    (∀ (items : List ItemInfo) (st : HState), processHierarchy items = some st →
      ∀ p c, c ∈ st.childMap.getD p [] →
        prioOf items c < prioOf items p
        ∧ isSubL (baseNameOf items p) (fileNameOf items c) = true)
    ∧ (∀ (items : List ItemInfo) (p c : Nat) (rest : List Nat) (st : HState),
        isSubL (baseNameOf items p) (fileNameOf items c) = true →
        betterParentExists items (baseNameOf items p) c st.order = some true →
        innerLoop items p (c :: rest) st = innerLoop items p rest st) := by
  constructor
  · intro items st h p c hc
    have hinv := outerLoop_inv items (sortDescIdx items) _ st h
      (childInv_init items items.length)
    exact hinv p c hc
  · intro items p c rest st hsub hbet
    rw [innerLoop]
    simp only [hsub, if_true, hbet]

/-- Concrete items for the C3 witness: the Maya scene `ab.ma` (priority 10)
becomes the parent of the texture `abc.tga` (priority 0). -/
def itemsNest : List ItemInfo := [⟨"ab.ma", 10⟩, ⟨"abc.tga", 0⟩]

/-- Concrete items for the skip conjunct of the C3 witness: both `ab.ma`
and `abc.max` have priority 10, and `abcd.tga` matches `abc` better than
`ab`. -/
def itemsSkip : List ItemInfo := [⟨"ab.ma", 10⟩, ⟨"abc.max", 10⟩, ⟨"abcd.tga", 0⟩]

/-- Witness for C3: the invariant instantiated on a successful concrete
run, and the skip rule instantiated where a longer-named candidate parent
exists. -/
theorem processHierarchy_spec_witness :
    (prioOf itemsNest 1 < prioOf itemsNest 0
      ∧ isSubL (baseNameOf itemsNest 0) (fileNameOf itemsNest 1) = true)
    ∧ innerLoop itemsSkip 0 [2] ⟨[0, 1, 2], [[], [], []]⟩ =
        innerLoop itemsSkip 0 [] ⟨[0, 1, 2], [[], [], []]⟩ := by
  constructor
  · exact processHierarchy_spec.1 itemsNest ⟨[0], [[1], []]⟩ (by decide) 0 1 (by decide)
  · exact processHierarchy_spec.2 itemsSkip 0 2 [] ⟨[0, 1, 2], [[], [], []]⟩
      (by decide) (by decide)

/-! ## `collector.py`: `_collect_file` and `_ensure_unique`

A collected publish item is embedded as its `path` property plus its
children; an item info produced by `_process_hierarchy` is its `item_type`,
`item_path` and nested child infos.  `_collect_file` first rejects
`script.*` item types, then calls `_ensure_unique`, which walks the
descendants of the parent item comparing `path` properties — the parent's
descendant paths are the input `descPaths`.  When the item is created its
child infos are collected recursively with the new item itself as parent,
so each child is checked only against the subtree collected under the new
item so far; a child collection returning `None` makes the Python code
crash on attribute access, embedded as `none`.  Display names, icons,
thumbnails and contexts play no role in the uniqueness claim and are not
modelled.
-/

inductive PItem where
  | node (path : String) (children : List PItem)

def PItem.path : PItem → String
  | .node p _ => p

/-- All paths in an item's subtree, the item's own included (so the
descendants of a parent with collected children `cs` are the subtree paths
of the members of `cs`). -/
def subtreePaths : PItem → List String
  | .node p cs => p :: goChildren cs
where
  goChildren : List PItem → List String
    | [] => []
    | t :: ts => subtreePaths t ++ goChildren ts

inductive InfoTree where
  | node (item_type : String) (item_path : String) (children : List InfoTree)

def InfoTree.itemType : InfoTree → String
  | .node ty _ _ => ty

def InfoTree.itemPath : InfoTree → String
  | .node _ p _ => p

/-- Concatenated subtree paths of a list of collected items. -/
def goPaths : List PItem → List String
  | [] => []
  | t :: ts => subtreePaths t ++ goPaths ts

mutual

/-- `BasicSceneCollector._collect_file`: `descPaths` are the `path`
properties of the parent item's current descendants. -/
def collectFile (descPaths : List String) : InfoTree → Option PItem
  | .node ty path children =>
    if isPrefixL "script".data ty.data then none
    else if descPaths.contains path then none
    else
      match collectChildren children [] with
      | none => none
      | some cs => some (.node path cs)

/-- The `for child in item_info['children']` loop: children already
collected under the new item form the accumulator, and each next child is
checked against their subtree paths (the new item's descendants). -/
def collectChildren : List InfoTree → List PItem → Option (List PItem)
  | [], acc => some acc
  | i :: rest, acc =>
    match collectFile (goPaths acc) i with
    | none => none
    | some t => collectChildren rest (acc ++ [t])

end

/-- C10 counterexample: an item info whose child carries the same path as
the item itself is collected without complaint — the child is only checked
against the new item's (empty) descendant set — so the resulting tree holds
the path `"a"` twice and the tree-wide uniqueness invariant is not
preserved. -/
theorem collectFile_counterexample :
    collectFile [] (.node "file.maya" "a" [.node "file.maya" "a" []]) =
      some (.node "a" [.node "a" []])
    ∧ subtreePaths (.node "a" [.node "a" []]) = ["a", "a"] := by
  constructor
  · simp [collectFile, collectChildren, goPaths, isPrefixL]
  · rw [subtreePaths]
    rfl

/-- C10 (amended): `_collect_file` returns `None` and adds nothing when the
item's type begins with `script` or when some descendant of the parent
already has the candidate's path; consequently a created item's own path
differs from every path already under the parent.  Uniqueness is only
enforced against the parent's existing descendants and, for recursively
collected children, against the new item's own partial subtree, so
tree-wide path uniqueness is not implied. -/
theorem collectFile_guard_spec (descPaths : List String) (info : InfoTree) :
    (isPrefixL "script".data info.itemType.data = true
        ∨ descPaths.contains info.itemPath = true →
      collectFile descPaths info = none)
    ∧ (∀ t, collectFile descPaths info = some t →
        descPaths.contains t.path = false ∧ t.path = info.itemPath) := by
  cases info with
  | node ty path children =>
    constructor
    · intro h
      rw [collectFile]
      rcases h with h | h
      · simp only [InfoTree.itemType] at h
        rw [if_pos h]
      · simp only [InfoTree.itemPath] at h
        by_cases hs : isPrefixL "script".data ty.data = true
        · rw [if_pos hs]
        · rw [if_neg hs, if_pos h]
    · intro t ht
      rw [collectFile] at ht
      by_cases hs : isPrefixL "script".data ty.data = true
      · rw [if_pos hs] at ht
        exact absurd ht (by simp)
      · rw [if_neg hs] at ht
        by_cases hc : descPaths.contains path = true
        · rw [if_pos hc] at ht
          exact absurd ht (by simp)
        · rw [if_neg hc] at ht
          split at ht
          · exact absurd ht (by simp)
          · simp only [Option.some.injEq] at ht
            subst ht
            exact ⟨by simpa using hc, rfl⟩

/-- Witness for C10's amended theorem: a duplicate of an existing
descendant path is rejected, and a successfully created item has a fresh
path. -/
theorem collectFile_guard_spec_witness :
    collectFile ["a"] (.node "file.maya" "a" []) = none
    ∧ (List.contains ["a"] (PItem.path (.node "b" [])) = false
        ∧ PItem.path (.node "b" []) = InfoTree.itemPath (.node "file.maya" "b" [])) := by
  constructor
  · exact (collectFile_guard_spec ["a"] (.node "file.maya" "a" [])).1 (Or.inr (by decide))
  · refine (collectFile_guard_spec ["a"] (.node "file.maya" "b" [])).2 (.node "b" []) ?_
    simp [collectFile, collectChildren, isPrefixL]

end TkConfigSwc
